import Mathlib

/-!
# Verification of the ant-design-vue Tabs core logic

Shallow embedding of `src/components/tabs/src/interface.ts` (which holds both
the tabs interface declarations and the `Tabs` / `InternalTabs` component
implementation).  JavaScript values that can flow through tab props are
modelled by `JsVal`; plain objects by insertion-ordered association lists;
the reactive pieces (`watchEffect` reconciler, `onMounted` id generation,
event handlers) by explicit state-passing functions.
-/

namespace Tabs

/-- A JavaScript value as it can appear in a tab's props: `undefined`, `null`,
a boolean, a string, an integer number, or an opaque reference (vnode, render
function, ...) identified by a tag. -/
inductive JsVal where
  | undefined : JsVal
  | null : JsVal
  | bool : Bool → JsVal
  | str : String → JsVal
  | num : Int → JsVal
  | raw : Nat → JsVal
deriving DecidableEq, Repr

/-- Decimal digits of `n`, most significant first; `[]` for `0`. -/
def decDigits (n : Nat) : List Nat :=
  if h : n = 0 then [] else
    have : n / 10 < n := Nat.div_lt_self (Nat.pos_of_ne_zero h) (by omega)
    decDigits (n / 10) ++ [n % 10]

/-- The character for a decimal digit `d < 10` (embedding of the digit
characters JavaScript number-to-string conversion emits). -/
def decDigitChar (d : Nat) : Char := Char.ofNat (48 + d)

/-- JavaScript `ToString` on a non-negative integer: its decimal notation. -/
def natToDec (n : Nat) : String :=
  if n = 0 then "0" else ⟨(decDigits n).map decDigitChar⟩

/-- JavaScript `ToString` on an integer number. -/
def intToDec (i : Int) : String :=
  if i < 0 then "-" ++ natToDec i.natAbs else natToDec i.toNat

/-- JavaScript `String(v)` on the values of `JsVal`. -/
def jsToString : JsVal → String
  | .undefined => "undefined"
  | .null => "null"
  | .bool b => if b then "true" else "false"
  | .str s => s
  | .num i => intToDec i
  | .raw _ => "[object Object]"

/-- A JavaScript plain object: insertion-ordered key/value pairs,
keys unique. -/
abbrev JsObj := List (String × JsVal)

/-- `o[k]`: the value stored at `k`, `undefined` when absent. -/
def objGet (o : JsObj) (k : String) : JsVal :=
  match o.find? (fun p => p.1 = k) with
  | some p => p.2
  | none => .undefined

/-- `delete o[k]`. -/
def objDelete (o : JsObj) (k : String) : JsObj :=
  o.filter (fun p => p.1 ≠ k)

/-- `o[k] = v`: overwrite in place when `k` is present, else append
(JavaScript property insertion order). -/
def objSet (o : JsObj) (k : String) (v : JsVal) : JsObj :=
  if o.any (fun p => p.1 = k) then
    o.map (fun p => if p.1 = k then (k, v) else p)
  else
    o ++ [(k, v)]

/-- Vue's `camelize` word-character test (regex `\w`). -/
def isWordChar (c : Char) : Bool := c.isAlpha || c.isDigit || c = '_'

/-- Core of Vue's `camelize`: replace each `-(\w)` by the upper-cased
word character. -/
def camelizeAux : List Char → List Char
  | [] => []
  | '-' :: c :: rest =>
    if isWordChar c then c.toUpper :: camelizeAux rest
    else '-' :: camelizeAux (c :: rest)
  | c :: rest => c :: camelizeAux rest

/-- Vue's `camelize`: kebab-case to camelCase — `str.replace` with the global
regex matching a hyphen followed by a word character, replacing the match by
the word character upper-cased. -/
def camelize (s : String) : String := ⟨camelizeAux s.data⟩

/-- The prop-normalisation loop of `parseTabList`:
`for (const [k, v] of Object.entries(props)) { delete props[k];
props[camelize(k)] = v; }` — `Object.entries` snapshots the keys first,
then the object is mutated. -/
def camelizeProps (props : JsObj) : JsObj :=
  props.foldl (fun acc kv => objSet (objDelete acc kv.1) (camelize kv.1) kv.2) props

/-- The slots object of a tab vnode (`node.children`): the `tab` and
`closeIcon` slots; a slot that is not provided is `undefined`. -/
structure Slots where
  tab : JsVal
  closeIcon : JsVal
deriving DecidableEq, Repr

/-- A raw child vnode as `parseTabList` receives it: whether
`isValidElement` accepts it, its `key`, its `props` object
(possibly `null`), and its `children` slots object (possibly absent). -/
structure RawNode where
  valid : Bool
  key : JsVal
  props : Option JsObj
  children : Option Slots
deriving DecidableEq, Repr

/-- `v === '' || v`: the empty-string-to-`true` coercion applied to the
boolean-valued tab attributes. -/
def emptyToTrue (v : JsVal) : JsVal :=
  if v = .str "" then .bool true else v

/-- The tab record `parseTabList` builds for one valid element
(the fields the code names explicitly; the `...props` spread's remaining
fields carry no further meaning for the tabs logic). -/
structure TabRec where
  key : JsVal
  node : RawNode
  closeIcon : JsVal
  tab : JsVal
  disabled : JsVal
  forceRender : JsVal
  closable : JsVal
  animated : JsVal
  active : JsVal
  destroyInactiveTabPane : JsVal
deriving DecidableEq, Repr

/-- The element branch of `parseTabList`'s `map` callback. -/
def parseTab (node : RawNode) : TabRec :=
  let props := camelizeProps (node.props.getD [])
  let slots := node.children.getD { tab := .undefined, closeIcon := .undefined }
  let key := if node.key = JsVal.undefined then JsVal.undefined else .str (jsToString node.key)
  let tab := if objGet props "tab" = .undefined then slots.tab else objGet props "tab"
  { key := key
    node := node
    closeIcon := slots.closeIcon
    tab := tab
    disabled := emptyToTrue (objGet props "disabled")
    forceRender := emptyToTrue (objGet props "forceRender")
    closable := emptyToTrue (objGet props "closable")
    animated := emptyToTrue (objGet props "animated")
    active := emptyToTrue (objGet props "active")
    destroyInactiveTabPane := emptyToTrue (objGet props "destroyInactiveTabPane") }

/-- `parseTabList`: map each child to a tab record (`null` for non-elements),
then filter the `null`s out. -/
def parseTabList (children : List RawNode) : List TabRec :=
  (children.map (fun node => if node.valid then some (parseTab node) else none)).filterMap id

/-! ## InternalTabs: derived presentation state -/

/-- The `animated` prop as its TypeScript type declares it:
`boolean | AnimatedConfig`, an `AnimatedConfig` object having optional
`inkBar` / `tabPane` fields (`none` = field absent). -/
inductive AnimatedProp where
  | bool : Bool → AnimatedProp
  | obj : Option Bool → Option Bool → AnimatedProp
deriving DecidableEq, Repr

/-- The resolved animated configuration. -/
structure AnimatedConfig where
  inkBar : Bool
  tabPane : Bool
deriving DecidableEq, Repr

/-- `mergedAnimated`: `false` turns both flags off, `true` both on, and an
object is spread over the defaults `{inkBar: true, tabPane: false}` so its
present fields win. -/
def mergedAnimated : AnimatedProp → AnimatedConfig
  | .bool false => { inkBar := false, tabPane := false }
  | .bool true => { inkBar := true, tabPane := true }
  | .obj inkBar tabPane => { inkBar := inkBar.getD true, tabPane := tabPane.getD false }

/-- The `tabPosition` prop values. -/
inductive TabPosition where
  | left | right | top | bottom
deriving DecidableEq, Repr

/-- `mergedTabPosition`: on mobile a position that is neither `left` nor
`right` collapses to `top`; otherwise the declared position stands. -/
def mergedTabPosition (mobile : Bool) (tabPosition : TabPosition) : TabPosition :=
  if mobile && !(tabPosition = .left || tabPosition = .right) then .top
  else tabPosition

/-! ## InternalTabs: active-key state -/

/-- A `string | undefined` active key rendered back into a `JsVal`
(for the `===` comparisons the code performs on tab keys). -/
def jsOfKey : Option String → JsVal
  | some s => .str s
  | none => .undefined

/-- A tab key `JsVal` read as `string | undefined`. -/
def keyToOpt : JsVal → Option String
  | .str s => some s
  | _ => none

/-- `tabs.findIndex(tab => tab.key === key)`: index of the first tab whose
key is `===` the given key, `-1` when none is. -/
def jsFindIndex (tabs : List TabRec) (key : Option String) : Int :=
  match tabs with
  | [] => -1
  | t :: rest =>
    if t.key = jsOfKey key then 0
    else
      let r := jsFindIndex rest key
      if r = -1 then -1 else r + 1

/-- `tabs[i]?.key` as a `string | undefined`: `undefined` when the index is
out of range or the tab's own key is `undefined`. -/
def keyAt (tabs : List TabRec) (i : Int) : Option String :=
  if i < 0 then none
  else match tabs[i.toNat]? with
    | some t => keyToOpt t.key
    | none => none

/-- The body of the active-key reconciling `watchEffect`, acting on the pair
(merged active key, active index): find the active key's index; when absent,
clamp the previous index with `Math.max(0, Math.min(activeIndex, length - 1))`
and set the key at that index; store the new index. -/
def watchStep (tabs : List TabRec) (key : Option String) (idx : Int) :
    Option String × Int :=
  let newActiveIndex := jsFindIndex tabs key
  if newActiveIndex = -1 then
    let ni := max 0 (min idx ((tabs.length : Int) - 1))
    (keyAt tabs ni, ni)
  else
    (key, newActiveIndex)

/-- Modelled from the spec: `useMergedState` (a `_util` hook outside the tabs
sources) resolves the merged value — "If controlled externally, the
externally supplied value takes precedence; otherwise falls back to an
internal default". -/
def mergedOf (value : Option String) (inner : Option String) : Option String :=
  match value with
  | some v => some v
  | none => inner

/-- Modelled from the spec: the internal state of `useMergedState` is
initialized from `defaultActiveKey`, "which itself falls back to the first
tab's key if unset" (`() => tabs[0]?.key`). -/
def innerInit (defaultActiveKey : Option String) (tabs : List TabRec) : Option String :=
  match defaultActiveKey with
  | some k => some k
  | none =>
    match tabs.head? with
    | some t => keyToOpt t.key
    | none => none

/-- The merged active key right after setup: the `activeKey` prop when
supplied, else the internal state initialized by `innerInit`. -/
def mergedActiveKeyInit (activeKey defaultActiveKey : Option String)
    (tabs : List TabRec) : Option String :=
  mergedOf activeKey (innerInit defaultActiveKey tabs)

/-- The reconciler's mutable state: the internal (uncontrolled) key held by
`useMergedState`, and the numeric active index. -/
structure ActiveState where
  inner : Option String
  activeIndex : Int
deriving DecidableEq, Repr

/-- One run of the reconciling `watchEffect` with the controlled/uncontrolled
resolution of `useMergedState` made explicit: the merged key is read through
`mergedOf`, and `setMergedActiveKey` writes the internal state. -/
def reconcile (activeKeyProp : Option String) (tabs : List TabRec)
    (st : ActiveState) : ActiveState :=
  let merged := mergedOf activeKeyProp st.inner
  let newActiveIndex := jsFindIndex tabs merged
  if newActiveIndex = -1 then
    let ni := max 0 (min st.activeIndex ((tabs.length : Int) - 1))
    { inner := keyAt tabs ni, activeIndex := ni }
  else
    { st with activeIndex := newActiveIndex }

/-! ## InternalTabs: accessibility id -/

/-- JavaScript truthiness test of `props.id` (`!props.id`): `undefined` and
the empty string are falsy. -/
def jsFalsyStr : Option String → Bool
  | none => true
  | some s => s = ""

/-- Result of the `onMounted` id-generation effect: the id stored by
`setMergedId` (when one was generated) and the new value of the module-level
`uuid` counter. -/
structure MountResult where
  generatedId : Option String
  uuid : Nat
deriving DecidableEq, Repr

/-- The `onMounted` id generation: when `props.id` is falsy, store
`rc-tabs-${uuid}` (the literal `test` instead of the counter under a test
`NODE_ENV`) and increment the module-level counter; otherwise do nothing. -/
def onMountedId (nodeEnvTest : Bool) (propsId : Option String) (uuid : Nat) :
    MountResult :=
  if jsFalsyStr propsId then
    { generatedId := some ("rc-tabs-" ++ (if nodeEnvTest then "test" else natToDec uuid))
      uuid := uuid + 1 }
  else
    { generatedId := none, uuid := uuid }

/-! ## InternalTabs: events -/

/-- Observable actions of `onInternalTabClick`, in call order. -/
inductive TabEvent where
  | tabClick : String → TabEvent
  | setActiveKey : String → TabEvent
  | change : String → TabEvent
deriving DecidableEq, Repr

/-- `onInternalTabClick`: call `props.onTabClick?.(key, e)`, then
`setMergedActiveKey(key)`, then `props.onChange?.(key)`; the optional-call
operator skips an absent handler. -/
def onInternalTabClick (hasOnTabClick hasOnChange : Bool) (key : String) :
    List TabEvent :=
  (if hasOnTabClick then [TabEvent.tabClick key] else [])
    ++ [TabEvent.setActiveKey key]
    ++ (if hasOnChange then [TabEvent.change key] else [])

/-- The tabs `type` prop values. -/
inductive TabsType where
  | line | card | editableCard
deriving DecidableEq, Repr

/-- An `editable` config is built exactly for the `editable-card` type. -/
def hasEditable (type? : Option TabsType) : Bool :=
  type? = some TabsType.editableCard

/-- The edit action tag. -/
inductive EditAction where
  | add | remove
deriving DecidableEq, Repr

/-- The first argument `editable.onEdit` forwards to `props.onEdit`:
the triggering event (opaque tag) or the removed tab's key. -/
inductive EditPayload where
  | event : Nat → EditPayload
  | key : Option String → EditPayload
deriving DecidableEq, Repr

/-- `editable.onEdit`: forward to `props.onEdit?.(editType === 'add' ?
event : key, editType)` — the list holds the calls made to `props.onEdit`,
empty when that handler is absent. -/
def editableOnEdit (hasOnEdit : Bool) (editType : EditAction)
    (key : Option String) (event : Nat) : List (EditPayload × EditAction) :=
  if hasOnEdit then
    [(match editType with
      | .add => EditPayload.event event
      | .remove => EditPayload.key key,
      editType)]
  else []

/-- Modelled from the spec: "clamp the previous numeric index into
`[0, length-1]`" — the nearest index of that range. -/
def clampIndexSpec (idx len : Int) : Int :=
  if idx < 0 then 0 else if idx > len - 1 then len - 1 else idx

/-- A minimal valid tab child element carrying only a key. -/
def demoNode (k : String) : RawNode :=
  { valid := true, key := .str k, props := none, children := none }

/-- A concrete parsed tab list with keys `a` and `b`. -/
def demoTabs : List TabRec := parseTabList [demoNode "a", demoNode "b"]

/-- A valid tab child element declaring a single attribute (kebab-case where
an HTML template would use it) with an arbitrary value. -/
def demoPropNode (name : String) (v : JsVal) : RawNode :=
  { valid := true
    key := .str "t1"
    props := some [(name, v)]
    children := none }

/-- A non-element child node (rejected by `isValidElement`). -/
def demoInvalidNode : RawNode :=
  { valid := false, key := .undefined, props := none, children := none }

/-- A valid tab child element with no key. -/
def demoKeylessNode : RawNode :=
  { valid := true, key := .undefined, props := none, children := none }

/-- A concrete mixed child list: an element, a non-element, a keyless
element. -/
def demoChildren : List RawNode := [demoNode "a", demoInvalidNode, demoKeylessNode]

/-- A concrete parsed tab list with the single key `b`. -/
def demoTabsB : List TabRec := parseTabList [demoNode "b"]

/-- Decode a digit list (most significant first) back to the number it
denotes. -/
def decFromDigits (l : List Nat) : Nat :=
  l.foldl (fun acc d => acc * 10 + d) 0

/-- Decode a decimal character list back to the number it denotes. -/
def decFromChars (l : List Char) : Nat :=
  l.foldl (fun acc c => acc * 10 + (c.toNat - 48)) 0

/-! ## Theorems -/

theorem keyToOpt_jsOfKey (o : Option String) : keyToOpt (jsOfKey o) = o := by
  cases o <;> rfl

theorem clamp_eq_clampIndexSpec (idx len : Int) (h : 1 ≤ len) :
    max 0 (min idx (len - 1)) = clampIndexSpec idx len := by
  unfold clampIndexSpec
  split_ifs <;> omega

theorem keyAt_nil (i : Int) : keyAt [] i = none := by
  unfold keyAt
  split <;> simp

theorem keyAt_of_bounds (tabs : List TabRec) (i : Int) (h0 : 0 ≤ i)
    (hlt : i.toNat < tabs.length) :
    keyAt tabs i = keyToOpt (tabs.get ⟨i.toNat, hlt⟩).key := by
  unfold keyAt
  rw [if_neg (by omega), List.getElem?_eq_getElem hlt]
  rfl

/-- C1: on a tab-list change where the current active key is not among the
tabs' keys, the reconciling effect clamps the previous numeric index into
`[0, length-1]` and sets the active key to the key of the tab at that clamped
index — and to unset when the tab list is empty. -/
theorem watchStep_clamps_on_removal (tabs : List TabRec) (key : Option String)
    (idx : Int) (h : jsFindIndex tabs key = -1) :
    (tabs = [] → (watchStep tabs key idx).1 = none) ∧
    (tabs ≠ [] →
      (watchStep tabs key idx).2 = clampIndexSpec idx tabs.length ∧
      0 ≤ (watchStep tabs key idx).2 ∧
      (watchStep tabs key idx).2 < (tabs.length : Int) ∧
      (watchStep tabs key idx).1 = keyAt tabs (clampIndexSpec idx tabs.length) ∧
      ∃ hlt : (watchStep tabs key idx).2.toNat < tabs.length,
        (watchStep tabs key idx).1 = keyToOpt (tabs.get ⟨(watchStep tabs key idx).2.toNat, hlt⟩).key) := by
  have hw : watchStep tabs key idx
      = (keyAt tabs (max 0 (min idx ((tabs.length : Int) - 1))),
         max 0 (min idx ((tabs.length : Int) - 1))) := by
    simp [watchStep, h]
  constructor
  · rintro rfl
    rw [hw]
    exact keyAt_nil _
  · intro hne
    have hlen : 1 ≤ (tabs.length : Int) := by
      have := List.length_pos.mpr hne
      omega
    have hclamp := clamp_eq_clampIndexSpec idx (tabs.length : Int) hlen
    have hb : 0 ≤ clampIndexSpec idx (tabs.length : Int) ∧
        clampIndexSpec idx (tabs.length : Int) < (tabs.length : Int) := by
      unfold clampIndexSpec
      split_ifs <;> omega
    have hlt : (clampIndexSpec idx (tabs.length : Int)).toNat < tabs.length := by
      omega
    rw [hw, hclamp]
    refine ⟨rfl, hb.1, hb.2, rfl, hlt, ?_⟩
    exact keyAt_of_bounds tabs _ hb.1 hlt

/-- Witness for C1: with tabs `a, b`, removed active key `c` and previous
index `5`, the clamped index is `1` and the new active key is `b`. -/
theorem watchStep_clamps_on_removal_witness :
    jsFindIndex demoTabs (some "c") = -1 ∧
    (watchStep demoTabs (some "c") 5).1 = keyAt demoTabs (clampIndexSpec 5 demoTabs.length) ∧
    (watchStep demoTabs (some "c") 5).1 = some "b" :=
  ⟨by decide,
   (((watchStep_clamps_on_removal demoTabs (some "c") 5 (by decide)).2 (by decide)).2.2.2.1),
   by decide⟩

/-- C2: the merged animated configuration is resolved by exactly three cases:
`animated === false` yields both flags off, `animated === true` both on, and
an object is merged over the defaults `{inkBar: true, tabPane: false}` so
that fields present in the object override the defaults. -/
theorem mergedAnimated_cases :
    mergedAnimated (.bool false) = { inkBar := false, tabPane := false } ∧
    mergedAnimated (.bool true) = { inkBar := true, tabPane := true } ∧
    (∀ b c : Bool,
      mergedAnimated (.obj (some b) (some c)) = { inkBar := b, tabPane := c } ∧
      mergedAnimated (.obj (some b) none) = { inkBar := b, tabPane := false } ∧
      mergedAnimated (.obj none (some c)) = { inkBar := true, tabPane := c }) ∧
    mergedAnimated (.obj none none) = { inkBar := true, tabPane := false } := by
  refine ⟨rfl, rfl, ?_, rfl⟩
  intro b c
  exact ⟨rfl, rfl, rfl⟩

/-- C5: when the mobile signal is on and the declared position is neither
`left` nor `right`, the effective tab position is `top`; otherwise it is the
declared position. -/
theorem mergedTabPosition_cases (mobile : Bool) (p : TabPosition) :
    (mobile = true → p ≠ TabPosition.left → p ≠ TabPosition.right →
      mergedTabPosition mobile p = TabPosition.top) ∧
    (mobile = false ∨ p = TabPosition.left ∨ p = TabPosition.right →
      mergedTabPosition mobile p = p) := by
  cases mobile <;> cases p <;> simp [mergedTabPosition]

/-- Witness for C5 at a concrete input: mobile with `bottom` collapses to
`top`, and mobile with `left` stays `left`. -/
theorem mergedTabPosition_cases_witness :
    mergedTabPosition true TabPosition.bottom = TabPosition.top ∧
    mergedTabPosition true TabPosition.left = TabPosition.left :=
  ⟨(mergedTabPosition_cases true TabPosition.bottom).1 rfl (by decide) (by decide),
   (mergedTabPosition_cases true TabPosition.left).2 (Or.inr (Or.inl rfl))⟩

/-- C6: a tab click with key `k` invokes the external click handler exactly
once with `k`, then updates the active key to `k`, then invokes the external
change handler exactly once with `k`, in that order. -/
theorem onInternalTabClick_order (k : String) :
    onInternalTabClick true true k
      = [TabEvent.tabClick k, TabEvent.setActiveKey k, TabEvent.change k] ∧
    (onInternalTabClick true true k).count (TabEvent.tabClick k) = 1 ∧
    (onInternalTabClick true true k).count (TabEvent.change k) = 1 := by
  refine ⟨rfl, ?_, ?_⟩ <;> simp [onInternalTabClick, List.count_cons]

/-- C8: the editable config exists exactly for the `editable-card` type, and
each add/remove interaction forwards to the single `onEdit` callback exactly
once, carrying the event for `add` and the removed tab's key for `remove`,
together with the action tag. -/
theorem editableOnEdit_cases (k : Option String) (e : Nat) :
    hasEditable (some TabsType.editableCard) = true ∧
    hasEditable (some TabsType.card) = false ∧
    editableOnEdit true EditAction.add k e = [(EditPayload.event e, EditAction.add)] ∧
    editableOnEdit true EditAction.remove k e = [(EditPayload.key k, EditAction.remove)] ∧
    (∀ ty, (editableOnEdit true ty k e).length = 1) := by
  refine ⟨rfl, rfl, rfl, rfl, ?_⟩
  intro ty
  cases ty <;> rfl

theorem parseTabList_cons (n : RawNode) (rest : List RawNode) :
    parseTabList (n :: rest)
      = if n.valid then parseTab n :: parseTabList rest else parseTabList rest := by
  by_cases h : n.valid <;> simp [parseTabList, h]

theorem parseTab_node (n : RawNode) : (parseTab n).node = n := rfl

theorem parseTab_key (n : RawNode) :
    (parseTab n).key
      = if n.key = JsVal.undefined then JsVal.undefined else .str (jsToString n.key) := rfl

/-- C4: a tab declaration routed through `parseTabList` coerces an
empty-string value of each of the attributes `disabled`, `forceRender`,
`closable`, `animated`, `active`, `destroyInactiveTabPane` to `true`, and
passes any other value through unchanged. -/
theorem parseTabList_empty_string_coercion (v : JsVal) :
    (∀ name, parseTabList [demoPropNode name v] = [parseTab (demoPropNode name v)]) ∧
    (parseTab (demoPropNode "disabled" v)).disabled
      = (if v = .str "" then .bool true else v) ∧
    (parseTab (demoPropNode "force-render" v)).forceRender
      = (if v = .str "" then .bool true else v) ∧
    (parseTab (demoPropNode "closable" v)).closable
      = (if v = .str "" then .bool true else v) ∧
    (parseTab (demoPropNode "animated" v)).animated
      = (if v = .str "" then .bool true else v) ∧
    (parseTab (demoPropNode "active" v)).active
      = (if v = .str "" then .bool true else v) ∧
    (parseTab (demoPropNode "destroy-inactive-tab-pane" v)).destroyInactiveTabPane
      = (if v = .str "" then .bool true else v) := by
  exact ⟨fun name => by simp [parseTabList, demoPropNode], rfl, rfl, rfl, rfl, rfl, rfl⟩

/-- C10: `parseTabList` is total on any child list: the records, in order,
are exactly the valid elements (non-elements are filtered out), and a valid
element without a key yields a record whose key is `undefined`. -/
theorem parseTabList_filters_and_tolerates (children : List RawNode) :
    (parseTabList children).map TabRec.node = children.filter (fun n => n.valid) ∧
    ∀ r ∈ parseTabList children, r.node.key = JsVal.undefined → r.key = JsVal.undefined := by
  induction children with
  | nil =>
    refine ⟨rfl, ?_⟩
    intro r hr
    simp [parseTabList] at hr
  | cons n rest ih =>
    constructor
    · rw [parseTabList_cons]
      by_cases h : n.valid
      · simp [h, parseTab_node, ih.1]
      · simp [h, ih.1]
    · intro r hr hk
      rw [parseTabList_cons] at hr
      by_cases h : n.valid
      · rw [if_pos h] at hr
        rcases List.mem_cons.mp hr with rfl | hr'
        · rw [parseTab_node] at hk
          rw [parseTab_key, if_pos hk]
        · exact ih.2 r hr' hk
      · rw [if_neg h] at hr
        exact ih.2 r hr hk

/-- Witness for C10: on the concrete mixed child list, the records are the
two valid elements in order and the keyless element's record has an
`undefined` key. -/
theorem parseTabList_filters_and_tolerates_witness :
    (parseTabList demoChildren).map TabRec.node
      = demoChildren.filter (fun n => n.valid) ∧
    (parseTab demoKeylessNode).key = JsVal.undefined :=
  ⟨(parseTabList_filters_and_tolerates demoChildren).1,
   (parseTabList_filters_and_tolerates demoChildren).2 (parseTab demoKeylessNode)
     (by decide) (by decide)⟩

/-- C7: the merged active key resolves by precedence — the `activeKey` prop
when supplied; else the internal state initialized from `defaultActiveKey`;
else the first tab's key. -/
theorem mergedActiveKeyInit_precedence (ak dk : Option String) (tabs : List TabRec) :
    (∀ k, ak = some k → mergedActiveKeyInit ak dk tabs = some k) ∧
    (ak = none → ∀ k, dk = some k → mergedActiveKeyInit ak dk tabs = some k) ∧
    (ak = none → dk = none → tabs = [] → mergedActiveKeyInit ak dk tabs = none) ∧
    (ak = none → dk = none → ∀ t rest, tabs = t :: rest →
      mergedActiveKeyInit ak dk tabs = keyToOpt t.key) := by
  refine ⟨?_, ?_, ?_, ?_⟩
  · rintro k rfl; rfl
  · rintro rfl k rfl; rfl
  · rintro rfl rfl rfl; rfl
  · rintro rfl rfl t rest rfl; rfl

/-- Witness for C7: the supplied `activeKey` beats a supplied default, and
with neither the first tab's key is used. -/
theorem mergedActiveKeyInit_precedence_witness :
    mergedActiveKeyInit (some "x") (some "y") demoTabs = some "x" ∧
    mergedActiveKeyInit none none demoTabsB = some "b" :=
  ⟨(mergedActiveKeyInit_precedence (some "x") (some "y") demoTabs).1 "x" rfl,
   by
    have := (mergedActiveKeyInit_precedence none none demoTabsB).2.2.2 rfl rfl
      (parseTab (demoNode "b")) [] (by decide)
    rw [this]; decide⟩

theorem mem_keys_of_jsFindIndex_ne (tabs : List TabRec) (k : Option String)
    (h : jsFindIndex tabs k ≠ -1) :
    k ∈ tabs.map (fun t => keyToOpt t.key) := by
  induction tabs with
  | nil => simp [jsFindIndex] at h
  | cons t rest ih =>
    simp only [jsFindIndex] at h
    by_cases ht : t.key = jsOfKey k
    · simp only [List.map_cons, List.mem_cons]
      left
      rw [ht, keyToOpt_jsOfKey]
    · rw [if_neg ht] at h
      have hr : jsFindIndex rest k ≠ -1 := by
        intro hr
        rw [hr] at h
        simp at h
      simp only [List.map_cons, List.mem_cons]
      exact Or.inr (ih hr)

/-- C3 counterexample: with the selection externally controlled by
`activeKey = "a"` while the tab list has shrunk to the single tab `b` (the
previous active index being `0`), after the reconciling effect the merged
active key still references no tab in the list and differs from the key at
the clamped index. -/
theorem reconcile_controlled_cex :
    ¬ (mergedOf (some "a") (reconcile (some "a") demoTabsB ⟨some "a", 0⟩).inner
        ∈ demoTabsB.map (fun t => keyToOpt t.key) ∨
       mergedOf (some "a") (reconcile (some "a") demoTabsB ⟨some "a", 0⟩).inner
        = keyAt demoTabsB (clampIndexSpec 0 demoTabsB.length)) := by
  decide

/-- C3 amended: after a tab-list change, when the selection is uncontrolled
the merged active key is the key of a tab of the current list (unset when
the list is empty); when externally controlled, the merged key equals the
`activeKey` prop regardless of the list. -/
theorem reconcile_invariant (akProp : Option String) (tabs : List TabRec)
    (st : ActiveState) :
    (akProp = none → tabs ≠ [] →
      mergedOf none (reconcile none tabs st).inner
        ∈ tabs.map (fun t => keyToOpt t.key)) ∧
    (akProp = none → tabs = [] →
      mergedOf none (reconcile none tabs st).inner = none) ∧
    (∀ k, akProp = some k →
      mergedOf akProp (reconcile akProp tabs st).inner = some k) := by
  refine ⟨?_, ?_, ?_⟩
  · intro _ hne
    by_cases hfi : jsFindIndex tabs (mergedOf none st.inner) = -1
    · have hlen : 1 ≤ (tabs.length : Int) := by
        have := List.length_pos.mpr hne
        omega
      have hb : 0 ≤ max 0 (min st.activeIndex ((tabs.length : Int) - 1)) ∧
          max 0 (min st.activeIndex ((tabs.length : Int) - 1)) < (tabs.length : Int) := by
        omega
      have hlt : (max 0 (min st.activeIndex ((tabs.length : Int) - 1))).toNat
          < tabs.length := by omega
      simp only [reconcile, hfi, if_pos]
      rw [keyAt_of_bounds tabs _ hb.1 hlt]
      show keyToOpt (tabs.get _).key ∈ _
      exact List.mem_map.mpr ⟨tabs.get _, List.get_mem _ _ _, rfl⟩
    · simp only [reconcile]
      rw [if_neg hfi]
      exact mem_keys_of_jsFindIndex_ne tabs (mergedOf none st.inner) hfi
  · rintro _ rfl
    simp [reconcile, jsFindIndex, keyAt_nil, mergedOf]
  · rintro k rfl
    rfl

/-- Witness for C3 amended: uncontrolled, with tab `a` removed and only `b`
left, the merged key lands on a key of the current list; controlled by
`activeKey = "a"` it stays `a`. -/
theorem reconcile_invariant_witness :
    mergedOf none (reconcile none demoTabsB ⟨some "a", 0⟩).inner
      ∈ demoTabsB.map (fun t => keyToOpt t.key) ∧
    mergedOf (some "a") (reconcile (some "a") demoTabsB ⟨some "a", 0⟩).inner
      = some "a" :=
  ⟨(reconcile_invariant none demoTabsB ⟨some "a", 0⟩).1 rfl (by decide),
   (reconcile_invariant (some "a") demoTabsB ⟨some "a", 0⟩).2.2 "a" rfl⟩

theorem decDigits_lt10 (n : Nat) : ∀ d ∈ decDigits n, d < 10 := by
  induction n using Nat.strong_induction_on with
  | _ n ih =>
    rw [decDigits]
    split
    · simp
    · intro d hd
      rcases List.mem_append.mp hd with h1 | h2
      · exact ih (n / 10) (Nat.div_lt_self (by omega) (by omega)) d h1
      · have : d = n % 10 := by simpa using h2
        subst this
        exact Nat.mod_lt _ (by omega)

theorem decDigits_foldl (n : Nat) :
    ∀ a, (decDigits n).foldl (fun acc d => acc * 10 + d) a
      = a * 10 ^ (decDigits n).length + n := by
  induction n using Nat.strong_induction_on with
  | _ n ih =>
    intro a
    rw [decDigits]
    split
    · next h => subst h; simp
    · next h =>
      rw [List.foldl_append, List.foldl_cons, List.foldl_nil,
        ih (n / 10) (Nat.div_lt_self (by omega) (by omega)) a]
      have hlen : (decDigits (n / 10) ++ [n % 10]).length
          = (decDigits (n / 10)).length + 1 := by simp
      rw [hlen]
      have hmod : 10 * (n / 10) + n % 10 = n := Nat.div_add_mod n 10
      calc (a * 10 ^ (decDigits (n / 10)).length + n / 10) * 10 + n % 10
          = a * (10 ^ (decDigits (n / 10)).length * 10)
            + (10 * (n / 10) + n % 10) := by ring
        _ = a * 10 ^ ((decDigits (n / 10)).length + 1) + n := by
            rw [hmod, pow_succ]

theorem toNat_decDigitChar (d : Nat) (h : d < 10) :
    (decDigitChar d).toNat = 48 + d := by
  interval_cases d <;> rfl

theorem decFromChars_map_decDigitChar (l : List Nat) (h : ∀ d ∈ l, d < 10) :
    ∀ a, (l.map decDigitChar).foldl (fun acc c => acc * 10 + (c.toNat - 48)) a
      = l.foldl (fun acc d => acc * 10 + d) a := by
  induction l with
  | nil => intro a; rfl
  | cons d rest ih =>
    intro a
    simp only [List.map_cons, List.foldl_cons]
    rw [toNat_decDigitChar d (h d (List.mem_cons_self _ _))]
    have h48 : 48 + d - 48 = d := by omega
    rw [h48]
    exact ih (fun x hx => h x (List.mem_cons_of_mem _ hx)) _

theorem decFromChars_natToDec (n : Nat) : decFromChars (natToDec n).data = n := by
  by_cases h : n = 0
  · subst h; rfl
  · rw [natToDec, if_neg h]
    show decFromChars ((decDigits n).map decDigitChar) = n
    rw [decFromChars, decFromChars_map_decDigitChar (decDigits n) (decDigits_lt10 n) 0,
      decDigits_foldl n 0]
    simp

theorem natToDec_injective : Function.Injective natToDec := by
  intro m n h
  have h2 := congrArg (fun s => decFromChars s.data) h
  simpa [decFromChars_natToDec] using h2

theorem rcTabsId_inj (u v : Nat)
    (h : "rc-tabs-" ++ natToDec u = "rc-tabs-" ++ natToDec v) : u = v := by
  have hd := congrArg String.data h
  simp only [String.data_append] at hd
  have hdata : (natToDec u).data = (natToDec v).data :=
    List.append_cancel_left hd
  exact natToDec_injective (String.ext hdata)

/-- C9 counterexample: supplying the external id `""` still consumes the
counter, and under a test `NODE_ENV` two successive mounts without an
external id receive the same generated id. -/
theorem onMountedId_cex :
    (onMountedId false (some "") 0).uuid = 1 ∧
    (onMountedId true none 0).generatedId = (onMountedId true none 1).generatedId ∧
    ((onMountedId true none 0).generatedId).isSome = true :=
  ⟨rfl, rfl, rfl⟩

/-- C9 amended: when the id prop is falsy (absent or empty string), an id is
generated and the process-wide counter increments by one — outside a test
`NODE_ENV` the id embeds the counter value, so mounts at distinct counter
values receive distinct ids, while a test `NODE_ENV` always generates
`rc-tabs-test`; when a truthy (non-empty) id is supplied, no id is generated
and the counter is not consumed. -/
theorem onMountedId_spec (propsId : Option String) (u v : Nat) :
    (jsFalsyStr propsId = true →
      (onMountedId false propsId u).generatedId = some ("rc-tabs-" ++ natToDec u) ∧
      (onMountedId false propsId u).uuid = u + 1 ∧
      (onMountedId true propsId u).generatedId = some "rc-tabs-test" ∧
      (onMountedId true propsId u).uuid = u + 1) ∧
    (u ≠ v →
      (onMountedId false none u).generatedId ≠ (onMountedId false none v).generatedId) ∧
    (jsFalsyStr propsId = false →
      (onMountedId false propsId u).generatedId = none ∧
      (onMountedId false propsId u).uuid = u ∧
      (onMountedId true propsId u).generatedId = none ∧
      (onMountedId true propsId u).uuid = u) := by
  refine ⟨?_, ?_, ?_⟩
  · intro h
    simp [onMountedId, h]
  · intro hne heq
    simp only [onMountedId, jsFalsyStr, if_pos, Option.some.injEq] at heq
    exact hne (rcTabsId_inj u v heq)
  · intro h
    simp [onMountedId, h]

/-- Witness for C9 amended: a truthy id leaves the counter at `0`; two
mounts at counters `0` and `1` generate distinct ids. -/
theorem onMountedId_spec_witness :
    (onMountedId false (some "x") 0).uuid = 0 ∧
    (onMountedId false none 0).generatedId ≠ (onMountedId false none 1).generatedId :=
  ⟨((onMountedId_spec (some "x") 0 1).2.2 (by decide)).2.1,
   (onMountedId_spec (some "x") 0 1).2.1 (by decide)⟩

end Tabs
